import Mathlib

/-!
Verification of the response-normalization layer of a Yahoo fantasy-basketball
reporting tool: the defensive nested accessor `safe_get`, the two weekly
parsers (`parse_weekly_scoreboard`, `parse_weekly_standings`) and the
persisted-record round trip.  Python values are embedded as `PyVal`; Python
exceptions are embedded as `Except PyErr`; Python `float` is modelled by `Rat`
(every numeric literal exercised here is exactly representable, and the
operations performed on it are exact, so the rational model coincides with
IEEE-754 on all verified runs).
-/

/-- A Python value as produced by `json.load`: mappings carry string keys,
in insertion order.  `float` is modelled by `Rat` (see header note). -/
inductive PyVal where
  | none
  | bool (b : Bool)
  | int (n : Int)
  | float (q : Rat)
  | str (s : String)
  | list (xs : List PyVal)
  | dict (es : List (String × PyVal))

instance : Inhabited PyVal := ⟨PyVal.none⟩

/-- A Python exception, as raised by the operations the parsers perform. -/
inductive PyErr where
  | keyError (k : String)
  | indexError
  | typeError
  | valueError
deriving DecidableEq, Repr

/-- An access key handed to `safe_get`: a field name or a positional index. -/
inductive Key where
  | str (s : String)
  | int (n : Int)
deriving DecidableEq, Repr

/-- First-match association lookup in a Python dict (keys are unique in a
real dict, so first match is the only match). -/
def lookupD : List (String × PyVal) → String → Option PyVal
  | [], _ => Option.none
  | (k, v) :: rest, s => if k = s then some v else lookupD rest s

/-- Python truthiness (`if x:`). -/
def pyTruthy : PyVal → Bool
  | .none => false
  | .bool b => b
  | .int n => decide (n ≠ 0)
  | .float q => decide (q ≠ 0)
  | .str s => decide (s ≠ "")
  | .list xs => !xs.isEmpty
  | .dict es => !es.isEmpty

/-- Python `str(x)` for the values the parsers feed to `str`.  Exact on
`None`, `bool`, `int` and `str` — the only shapes that reach `str()` on the
verified paths.  Container and float reprs are stand-ins (no theorem below
depends on them). -/
def pyStrOf : PyVal → String
  | .none => "None"
  | .bool b => if b then "True" else "False"
  | .int n => toString n
  | .float q => toString q
  | .str s => s
  | .list _ => "[...]"
  | .dict _ => "\x7b...\x7d"

/-- A Python-whitespace character (the set `str.strip` and numeric
constructors ignore at the ends). -/
def isSpaceChar (c : Char) : Bool :=
  c = ' ' || c = '\t' || c = '\n' || c = '\x0d' || c = '\x0b' || c = '\x0c'

/-- Drop leading Python whitespace from a character list. -/
def dropSpaces : List Char → List Char
  | [] => []
  | c :: rest => if isSpaceChar c then dropSpaces rest else c :: rest

/-- Strip Python whitespace from both ends of a character list. -/
def trimChars (cs : List Char) : List Char :=
  (dropSpaces (dropSpaces cs).reverse).reverse

/-- Accumulating digit scan shared by the numeric constructors. -/
def digitsToNatGo : List Char → Nat → Option Nat
  | [], acc => some acc
  | c :: rest, acc =>
    if '0' ≤ c && c ≤ '9' then digitsToNatGo rest (acc * 10 + (c.toNat - '0'.toNat))
    else Option.none

/-- Decimal digit run to a number: `Option.none` on an empty run or any
non-digit (the core of Python's `int`/`float` digit handling). -/
def digitsToNat (cs : List Char) : Option Nat :=
  match cs with
  | [] => Option.none
  | _ => digitsToNatGo cs 0

/-- Python `s.split(sep)` for a one-character separator, on character
lists: `"".split` gives `[""]`, adjacent separators give empty pieces. -/
def splitOnChar (sep : Char) : List Char → List (List Char)
  | [] => [[]]
  | c :: rest =>
    if c = sep then [] :: splitOnChar sep rest
    else
      match splitOnChar sep rest with
      | h :: t => (c :: h) :: t
      | [] => [[c]]

/-- Python `int(s)` on a string's characters: strip surrounding whitespace,
optional sign directly before a non-empty digit run; anything else raises
`ValueError`.  (Digit-group underscores, an exotic form never present in
this API's values, are not modelled.) -/
def pyIntParseChars (cs : List Char) : Except PyErr Int :=
  match trimChars cs with
  | '-' :: rest =>
    match digitsToNat rest with
    | some n => .ok (-(n : Int))
    | Option.none => .error .valueError
  | '+' :: rest =>
    match digitsToNat rest with
    | some n => .ok (n : Int)
    | Option.none => .error .valueError
  | t =>
    match digitsToNat t with
    | some n => .ok (n : Int)
    | Option.none => .error .valueError

/-- Python `int(s)` on a string. -/
def pyIntParse (s : String) : Except PyErr Int :=
  pyIntParseChars s.data

/-- Decimal forms accepted by Python `float(s)` as they occur in this API's
percentage fields: optional sign, digits with an optional fractional part
(`"0.625"`, `".5"`, `"5."`, `"7"`).  Exponent and inf/nan forms, which never
occur in percentage data, are not modelled. -/
def parseDecimalChars (cs : List Char) : Option Rat :=
  let signed : Rat × List Char :=
    match cs with
    | '-' :: rest => (-1, rest)
    | '+' :: rest => (1, rest)
    | _ => (1, cs)
  match splitOnChar '.' signed.2 with
  | [a] =>
    match digitsToNat a with
    | some n => some (signed.1 * (n : Rat))
    | Option.none => Option.none
  | [a, b] =>
    if a.isEmpty && b.isEmpty then Option.none
    else
      let ipart := if a.isEmpty then some 0 else digitsToNat a
      let fpart := if b.isEmpty then some 0 else digitsToNat b
      match ipart, fpart with
      | some i, some f =>
        some (signed.1 * ((i : Rat) + (f : Rat) / ((10 : Rat) ^ b.length)))
      | _, _ => Option.none
  | _ => Option.none

/-- Python `float(x)` on a value (raises `TypeError` on containers and
`None`, `ValueError` on a non-numeric string). -/
def pyFloat : PyVal → Except PyErr Rat
  | .float q => .ok q
  | .int n => .ok (n : Rat)
  | .bool b => .ok (if b then 1 else 0)
  | .str s =>
    match parseDecimalChars (trimChars s.data) with
    | some q => .ok q
    | Option.none => .error .valueError
  | _ => .error .typeError

/-- Python `d[k]` with a string key `k`: dict lookup (raising `KeyError`),
`TypeError` on every other receiver (`list`/`str` refuse string subscripts). -/
def pySubscriptStr (d : PyVal) (k : String) : Except PyErr PyVal :=
  match d with
  | .dict es =>
    match lookupD es k with
    | some v => .ok v
    | Option.none => .error (.keyError k)
  | _ => .error .typeError

/-- Python `d[i]` with an int literal `i`: list indexing (negative indices
count from the end, out of range raises `IndexError`), dict lookup with the
int key (always `KeyError` on a string-keyed dict), character indexing on a
string, `TypeError` otherwise. -/
def pyIndex (d : PyVal) (i : Int) : Except PyErr PyVal :=
  match d with
  | .list xs =>
    let j := if i < 0 then i + xs.length else i
    if h : 0 ≤ j ∧ j.toNat < xs.length then .ok (xs.get ⟨j.toNat, h.2⟩)
    else .error .indexError
  | .dict _ => .error (.keyError (toString i))
  | .str s =>
    let j := if i < 0 then i + s.length else i
    if h : 0 ≤ j ∧ j.toNat < s.data.length then
      .ok (.str (String.mk [s.data.get ⟨j.toNat, h.2⟩]))
    else .error .indexError
  | _ => .error .typeError

/-- Python `for x in d`: list elements, dict keys, string characters;
`TypeError` on non-iterables. -/
def pyIterate : PyVal → Except PyErr (List PyVal)
  | .list xs => .ok xs
  | .dict es => .ok (es.map (fun e => PyVal.str e.1))
  | .str s => .ok (s.data.map (fun c => PyVal.str (String.mk [c])))
  | _ => .error .typeError

/-- True exactly on a non-raising computation. -/
def exOk {ε α : Type} : Except ε α → Bool
  | .ok _ => true
  | .error _ => false

/-!
`safe_get` (src/parsing_responses/consts.py).  The per-step behaviour is
split into the same search loops the Python function performs.
-/

/-- Inner loop of `safe_get`'s dict fallback: scan `vals` for the first
dict that contains `s`, returning its value (`for inner in v.values(): if
isinstance(inner, dict) and key in inner`). -/
def searchInner (vals : List PyVal) (s : String) : Option PyVal :=
  match vals with
  | [] => Option.none
  | v :: rest =>
    match v with
    | .dict ies =>
      match lookupD ies s with
      | some x => some x
      | Option.none => searchInner rest s
    | _ => searchInner rest s

/-- Dict fallback of `safe_get` for an absent string key: for each value in
order, first a direct containment check, then one level deeper through the
value's own sub-dicts; first hit wins. -/
def searchVals (vals : List PyVal) (s : String) : Option PyVal :=
  match vals with
  | [] => Option.none
  | v :: rest =>
    match v with
    | .dict ies =>
      match lookupD ies s with
      | some x => some x
      | Option.none =>
        match searchInner (ies.map Prod.snd) s with
        | some x => some x
        | Option.none => searchVals rest s
    | _ => searchVals rest s

/-- First list scan of `safe_get` for a string key: the first element that
is a dict containing `s` supplies the value. -/
def searchItems (items : List PyVal) (s : String) : Option PyVal :=
  match items with
  | [] => Option.none
  | it :: rest =>
    match it with
    | .dict ies =>
      match lookupD ies s with
      | some x => some x
      | Option.none => searchItems rest s
    | _ => searchItems rest s

/-- Second (fallback) list scan of `safe_get` for a string key: each dict
element's values are searched one level deep. -/
def searchItemsDeep (items : List PyVal) (s : String) : Option PyVal :=
  match items with
  | [] => Option.none
  | it :: rest =>
    match it with
    | .dict ies =>
      match searchInner (ies.map Prod.snd) s with
      | some x => some x
      | Option.none => searchItemsDeep rest s
    | _ => searchItemsDeep rest s

/-- One step of `safe_get`: resolve `k` against the current node under all
of the accessor's lookup strategies; `Option.none` means the Python loop hits a
`return default`.  (The direct `key in d` hit for an int key against a
string-keyed dict never fires — `1 in "1": ...` is false in Python — so
the dict/int case goes straight to the stringified lookup.) -/
def stepGet (d : PyVal) (k : Key) : Option PyVal :=
  match d with
  | .dict es =>
    match k with
    | .str s =>
      match lookupD es s with
      | some v => some v
      | Option.none => searchVals (es.map Prod.snd) s
    | .int n => lookupD es (toString n)
  | .list xs =>
    match k with
    | .int n =>
      if h : 0 ≤ n ∧ n.toNat < xs.length then some (xs.get ⟨n.toNat, h.2⟩)
      else Option.none
    | .str s =>
      match searchItems xs s with
      | some v => some v
      | Option.none => searchItemsDeep xs s
  | _ => Option.none

/-- `safe_get(d, *keys, default=default)`: walk one key at a time; a `None`
node with keys remaining, or any unresolvable step, returns `default`
immediately.  Total by construction — the embedded accessor can never
raise. -/
def safeGet (d : PyVal) (keys : List Key) (default : PyVal) : PyVal :=
  match keys with
  | [] => d
  | k :: rest =>
    match d with
    | .none => default
    | _ =>
      match stepGet d k with
      | some d2 => safeGet d2 rest default
      | Option.none => default

/-- The same walk with failure kept abstract: `Option.none` exactly when the
Python accessor would return its default. -/
def safeGetOpt (d : PyVal) (keys : List Key) : Option PyVal :=
  match keys with
  | [] => some d
  | k :: rest =>
    match d with
    | .none => Option.none
    | _ =>
      match stepGet d k with
      | some d2 => safeGetOpt d2 rest
      | Option.none => Option.none

/-- `extract_from_list_of_dicts`'s scan: value of `key` in the first dict
element that has it. -/
def extractFirst : List PyVal → String → PyVal
  | [], _ => .none
  | it :: rest, key =>
    match it with
    | .dict ies =>
      match lookupD ies key with
      | some v => v
      | Option.none => extractFirst rest key
    | _ => extractFirst rest key

/-- `extract_from_list_of_dicts(lst, key)` (src/parsing_responses/consts.py):
`None` unless `lst` is a list holding a dict that contains `key`. -/
def extract_from_list_of_dicts (lst : PyVal) (key : String) : PyVal :=
  match lst with
  | .list items => extractFirst items key
  | _ => .none

/-- The fixed stat-id → readable-name table (src/parsing_responses/consts.py). -/
def STAT_ID_TO_NAME_MAP : List (String × String) :=
  [("5", "FG%"), ("8", "FT%"), ("10", "3PTM"), ("12", "PTS"), ("15", "REB"),
   ("16", "AST"), ("17", "STL"), ("18", "BLK"), ("19", "TO"),
   ("9004003", "FGM/FGA"), ("9007006", "FTM/FTA")]

/-- The fixed manager-id → manager-name table (src/parsing_responses/consts.py). -/
def MANAGER_ID_TO_NAME_MAP : List (String × String) :=
  [("1", "Bucharest Panthers"), ("2", "The Perfumer"), ("3", "Nahi\'s BOYS"),
   ("4", "LeBrother In Law"), ("5", "F.C HATERS"), ("6", "LevinSons"),
   ("7", "Maple Mamba"), ("8", "Tomitz Tapuzim B.C"), ("9", "המטביל"),
   ("10", "ג\'יי ג\'יי רדי")]

/-- `table.get(k)` on a string-to-string table: `None` on a miss. -/
def lookupS : List (String × String) → String → Option String
  | [], _ => Option.none
  | (k, v) :: rest, s => if k = s then some v else lookupS rest s

/-- Python `==` between a value and a string literal: string contents when
both are strings, `False` across types (so `9004003 == "9004003"` is
`False`). -/
def pyEqStr (v : PyVal) (s : String) : Bool :=
  match v with
  | .str t => decide (t = s)
  | _ => false

/-!
The shared per-stat loop body of both parsers
(src/parsing_responses/parsing_weekly_scoreboard.py lines 38-50,
src/parsing_responses/parsing_weekly_standings.py lines 50-62): composite
ids are split on `/` into made/attempted ints, everything else goes through
the name table, with a miss keeping the `None` produced by `.get`.
-/

/-- A stats-map key: `Option.none` is Python's `None`, produced by a name-table
miss. -/
abbrev StatKey := Option String

/-- Decode one stat entry into the `(key, value)` pairs the loop body stores
into `stats_map`, in store order; raises (`ValueError`) exactly where the
Python body would on a malformed composite value. -/
def decodeStat (statId statValue : PyVal) : Except PyErr (List (StatKey × PyVal)) :=
  if pyEqStr statId "9004003" || pyEqStr statId "9007006" then
    match splitOnChar '/' (pyStrOf statValue).data with
    | [made, attempts] =>
      match pyIntParseChars made, pyIntParseChars attempts with
      | .ok m, .ok a =>
        let throwType := if pyEqStr statId "9004003" then "FG" else "FT"
        .ok [(some (throwType ++ "M"), .int m), (some (throwType ++ "A"), .int a)]
      | _, _ => .error .valueError
    | _ => .error .valueError
  else
    .ok [(lookupS STAT_ID_TO_NAME_MAP (pyStrOf statId), statValue)]

/-- Python dict store `m[k] = v`: overwrite in place when `k` is present
(keeping its position), append otherwise. -/
def insertD (m : List (StatKey × PyVal)) (k : StatKey) (v : PyVal) :
    List (StatKey × PyVal) :=
  if m.any (fun e => decide (e.1 = k)) then
    m.map (fun e => if e.1 = k then (e.1, v) else e)
  else m ++ [(k, v)]

/-- One iteration of the stats loop: unpack `stat["stat"]`, its id and
value, decode, and store each produced pair into the map. -/
def applyStat (m : List (StatKey × PyVal)) (stat : PyVal) :
    Except PyErr (List (StatKey × PyVal)) :=
  match pySubscriptStr stat "stat" with
  | .error e => .error e
  | .ok statDict =>
    match pySubscriptStr statDict "stat_id" with
    | .error e => .error e
    | .ok statId =>
      match pySubscriptStr statDict "value" with
      | .error e => .error e
      | .ok statValue =>
        match decodeStat statId statValue with
        | .error e => .error e
        | .ok entries => .ok (entries.foldl (fun acc e => insertD acc e.1 e.2) m)

/-- The whole `for stat in stats_lst` loop, threading `stats_map`. -/
def processStats (m : List (StatKey × PyVal)) (stats : List PyVal) :
    Except PyErr (List (StatKey × PyVal)) :=
  match stats with
  | [] => .ok m
  | st :: rest =>
    match applyStat m st with
    | .error e => .error e
    | .ok m2 => processStats m2 rest

/-!
`parse_weekly_scoreboard` (src/parsing_responses/parsing_weekly_scoreboard.py).
The Python function has NO try/except: every raise inside the team loop
escapes the whole call, which the `Except` result type records.
-/

/-- The record appended per scoreboard team: `{"team_name": ..., "stats": ...}`. -/
structure TeamRec where
  team_name : Option String
  stats : List (StatKey × PyVal)

/-- Process one value of the `teams` dict (body of the scoreboard team
loop).  `ok Option.none` means the team was silently skipped by an isinstance
guard; `error` models an uncaught Python exception. -/
def parseTeamScore (team : PyVal) : Except PyErr (Option TeamRec) :=
  match team with
  | .dict _ =>
    match pySubscriptStr team "team" with
    | .error e => .error e
    | .ok team_lst =>
      match pyIndex team_lst 0 with
      | .error e => .error e
      | .ok team_info =>
        let team_id := extract_from_list_of_dicts team_info "team_id"
        match pyIndex team_lst 1 with
        | .error e => .error e
        | .ok team_stats_dict =>
          match team_stats_dict with
          | .dict _ =>
            match pySubscriptStr team_stats_dict "team_stats" with
            | .error e => .error e
            | .ok ts =>
              match pySubscriptStr ts "stats" with
              | .error e => .error e
              | .ok statsVal =>
                match pyIterate statsVal with
                | .error e => .error e
                | .ok statsItems =>
                  match processStats [] statsItems with
                  | .error e => .error e
                  | .ok statsMap =>
                    .ok (some { team_name := lookupS MANAGER_ID_TO_NAME_MAP (pyStrOf team_id),
                                stats := statsMap })
          | _ => .ok Option.none
  | _ => .ok Option.none

/-- The `for team in teams.values()` loop, appending records in order. -/
def teamsLoop (teams : List PyVal) : Except PyErr (List TeamRec) :=
  match teams with
  | [] => .ok []
  | t :: rest =>
    match parseTeamScore t with
    | .error e => .error e
    | .ok r =>
      match teamsLoop rest with
      | .error e => .error e
      | .ok rs =>
        match r with
        | some rec => .ok (rec :: rs)
        | Option.none => .ok rs

/-- The `for matchup in matchups.values()` loop: per matchup, `teams` is
fetched with `safe_get(matchup, "teams", default={})` and iterated only
when it is a dict. -/
def matchupsLoop (ms : List PyVal) : Except PyErr (List TeamRec) :=
  match ms with
  | [] => .ok []
  | m :: rest =>
    let teams := safeGet m [Key.str "teams"] (PyVal.dict [])
    let here : Except PyErr (List TeamRec) :=
      match teams with
      | .dict es => teamsLoop (es.map Prod.snd)
      | _ => .ok []
    match here with
    | .error e => .error e
    | .ok rs1 =>
      match matchupsLoop rest with
      | .error e => .error e
      | .ok rs2 => .ok (rs1 ++ rs2)

/-- `parse_weekly_scoreboard(data)`: locate the matchups sub-tree via
`safe_get`, then run the nested loops.  An `error` result models a Python
exception propagating out of the function. -/
def parseWeeklyScoreboard (data : PyVal) : Except PyErr (List TeamRec) :=
  let matchups := safeGet data
    [Key.str "fantasy_content", Key.str "league", Key.str "scoreboard", Key.str "matchups"]
    PyVal.none
  match matchups with
  | .dict es => matchupsLoop (es.map Prod.snd)
  | _ => .ok []

/-- The team values one matchup contributes: the values of its `teams`
dict, nothing when `safe_get`'s result is not a dict. -/
def matchupTeams (m : PyVal) : List PyVal :=
  match safeGet m [Key.str "teams"] (PyVal.dict []) with
  | .dict ts => ts.map Prod.snd
  | _ => []

/-- The team values the scoreboard walk visits, in visit order (the claim-side
view of the traversal used to state which teams are reached). -/
def scoreboardTeams (data : PyVal) : List PyVal :=
  let matchups := safeGet data
    [Key.str "fantasy_content", Key.str "league", Key.str "scoreboard", Key.str "matchups"]
    PyVal.none
  match matchups with
  | .dict es => (es.map Prod.snd).flatMap matchupTeams
  | _ => []

/-- The record a scoreboard team contributes when its processing does not
raise. -/
def recOfScore (t : PyVal) : Option TeamRec :=
  match parseTeamScore t with
  | .ok r => r
  | .error _ => Option.none

/-- The records of the teams that parse cleanly, in visit order. -/
def scoreboardRecs (data : PyVal) : List TeamRec :=
  (scoreboardTeams data).filterMap recOfScore

/-!
`parse_weekly_standings` (src/parsing_responses/parsing_weekly_standings.py).
Here the whole walk IS wrapped in try/except: on any raise the function
returns the `result` list accumulated so far.
-/

/-- The record appended per standings team. -/
structure StandRec where
  team_name : Option String
  standing : Int
  win_rate : Rat
  stats : List (StatKey × PyVal)

/-- Win-rate extraction (lines 65-69 of the standings parser):
`team_lst[2]["team_standings"]["outcome_totals"]["percentage"]`, then
`float(raw) * 100 if raw else 0.0`. -/
def extractWinRate (team_lst : PyVal) : Except PyErr Rat :=
  match pyIndex team_lst 2 with
  | .error e => .error e
  | .ok team_standings_dict =>
    match pySubscriptStr team_standings_dict "team_standings" with
    | .error e => .error e
    | .ok team_standings =>
      match pySubscriptStr team_standings "outcome_totals" with
      | .error e => .error e
      | .ok outcome_totals =>
        match pySubscriptStr outcome_totals "percentage" with
        | .error e => .error e
        | .ok raw =>
          if pyTruthy raw then
            match pyFloat raw with
            | .error e => .error e
            | .ok q => .ok (q * 100)
          else .ok 0

/-- Body of the `for standing, team in standings.items()` loop: `ok
Option.none` for a team skipped by an isinstance guard, `error` for a raise
(which the caller's try/except will absorb). -/
def parseTeamStanding (standingKey : String) (team : PyVal) :
    Except PyErr (Option StandRec) :=
  match team with
  | .dict _ =>
    match pySubscriptStr team "team" with
    | .error e => .error e
    | .ok team_lst =>
      match pyIndex team_lst 0 with
      | .error e => .error e
      | .ok team_info =>
        let team_id := extract_from_list_of_dicts team_info "team_id"
        match pyIndex team_lst 1 with
        | .error e => .error e
        | .ok team_stats_dict =>
          match team_stats_dict with
          | .dict _ =>
            match pySubscriptStr team_stats_dict "team_stats" with
            | .error e => .error e
            | .ok ts =>
              match pySubscriptStr ts "stats" with
              | .error e => .error e
              | .ok statsVal =>
                match pyIterate statsVal with
                | .error e => .error e
                | .ok statsItems =>
                  match processStats [] statsItems with
                  | .error e => .error e
                  | .ok statsMap =>
                    match extractWinRate team_lst with
                    | .error e => .error e
                    | .ok win_rate =>
                      match pyIntParse standingKey with
                      | .error e => .error e
                      | .ok n =>
                        .ok (some { team_name := lookupS MANAGER_ID_TO_NAME_MAP (pyStrOf team_id),
                                    standing := n + 1,
                                    win_rate := win_rate,
                                    stats := statsMap })
          | _ => .ok Option.none
  | _ => .ok Option.none

/-- The standings team loop with Python's mutated `result` made explicit:
return the final list, and the first raise (if any) together with what had
been accumulated when it happened. -/
def standingsGo (entries : List (String × PyVal)) (acc : List StandRec) :
    List StandRec × Option PyErr :=
  match entries with
  | [] => (acc, Option.none)
  | (k, t) :: rest =>
    match parseTeamStanding k t with
    | .ok (some r) => standingsGo rest (acc ++ [r])
    | .ok Option.none => standingsGo rest acc
    | .error e => (acc, some e)

/-- The `isinstance(standings, dict)` guard and team loop of
`parse_weekly_standings`, on the `standings` value `safe_get` produced. -/
def standingsTeamsArm (standings : PyVal) :
    Except (List StandRec × PyErr) (List StandRec) :=
  match standings with
  | .dict es =>
    match standingsGo es [] with
    | (acc, Option.none) => .ok acc
    | (acc, some e) => .error (acc, e)
  | _ => .ok []

/-- The try-block of `parse_weekly_standings`: an `error` value carries the
`result` accumulated before the raise, exactly what the except-arm will
hand back. -/
def parseWeeklyStandingsExc (data : PyVal) :
    Except (List StandRec × PyErr) (List StandRec) :=
  let standings_structure := safeGet data
    [Key.str "fantasy_content", Key.str "league", Key.str "standings"] PyVal.none
  match standings_structure with
  | .none => .ok []
  | _ =>
    match pyIndex standings_structure 0 with
    | .error e => .error ([], e)
    | .ok s0 => standingsTeamsArm (safeGet s0 [Key.str "teams"] PyVal.none)

/-- `parse_weekly_standings(data, week)`: the try/except wrapper — any raise
is caught and the accumulated `result` returned.  Total: the caller can
never see an exception. -/
def parseWeeklyStandings (data : PyVal) (week : String) : List StandRec :=
  match parseWeeklyStandingsExc data with
  | .ok rs => rs
  | .error (acc, _) => acc

/-- The team entries the `standings` value holds when it passes the dict
guard (claim-side view of `standingsTeamsArm`'s iteration). -/
def entriesArm (standings : PyVal) : Option (List (String × PyVal)) :=
  match standings with
  | .dict es => some es
  | _ => Option.none

/-- The `(standing, team)` items the standings walk would iterate, when the
walk reaches its teams dict without raising (claim-side view). -/
def standingsEntries (data : PyVal) : Option (List (String × PyVal)) :=
  let standings_structure := safeGet data
    [Key.str "fantasy_content", Key.str "league", Key.str "standings"] PyVal.none
  match standings_structure with
  | .none => Option.none
  | _ =>
    match pyIndex standings_structure 0 with
    | .error _ => Option.none
    | .ok s0 => entriesArm (safeGet s0 [Key.str "teams"] PyVal.none)

/-- True when a team entry's loop body completes without raising. -/
def wfStand (k : String) (t : PyVal) : Bool :=
  match parseTeamStanding k t with
  | .ok _ => true
  | .error _ => false

/-- The record a team entry contributes (`Option.none` for a guard-skip or a
raise). -/
def recOfStand (k : String) (t : PyVal) : Option StandRec :=
  match parseTeamStanding k t with
  | .ok r => r
  | .error _ => Option.none

/-- Records of the teams before the first raising entry: the sequence the
fail-soft contract promises. -/
def accumulatedRecs (es : List (String × PyVal)) : List StandRec :=
  (es.takeWhile (fun e => wfStand e.1 e.2)).filterMap (fun e => recOfStand e.1 e.2)

/-!
Persisted round trip (`save_parsed_response_to_file` in
src/parsing_responses/consts.py followed by a `json.load` of the file).
The dump/load pair itself is Python's stdlib `json` module, an external
collaborator; its documented behaviour on these records is: dict entries
are written in insertion order, a non-string key is coerced to a string
(`None` becomes the four-character key `"null"`), and reading builds each
dict back by inserting the written pairs in order (a duplicated key keeps
the last value).  Values of the shapes records hold (strings, ints, null,
nested of those, and floats whose repr round-trips) come back equal. -/
def jsonRTKey : StatKey → StatKey
  | Option.none => some "null"
  | some s => some s

/-- What a stats mapping looks like after dump + load: keys coerced, pairs
re-inserted in order. -/
def statsRT (m : List (StatKey × PyVal)) : List (StatKey × PyVal) :=
  m.foldl (fun acc e => insertD acc (jsonRTKey e.1) e.2) []

/-- One scoreboard record after dump + load (the fixed field names
`team_name`/`stats` are ordinary string keys and survive unchanged). -/
def teamRecRT (r : TeamRec) : TeamRec :=
  { team_name := r.team_name, stats := statsRT r.stats }

/-- A persisted scoreboard record sequence after dump + load. -/
def saveLoadRoundTrip (rs : List TeamRec) : List TeamRec :=
  rs.map teamRecRT

/-- One standings record after dump + load: the fixed field names
(`team_name`/`standing`/`win_rate`/`stats`) are ordinary string keys,
`standing` is an int and `win_rate` a float whose repr round-trips
exactly, so only the stats keys can change. -/
def standRecRT (r : StandRec) : StandRec :=
  { team_name := r.team_name, standing := r.standing,
    win_rate := r.win_rate, stats := statsRT r.stats }

/-- A persisted standings record sequence after dump + load (written by
the same `save_parsed_response_to_file`). -/
def saveLoadRoundTripStand (rs : List StandRec) : List StandRec :=
  rs.map standRecRT

/-!
Concrete response fixtures, shaped like the Yahoo payloads the parsers
consume.
-/

/-- One stat entry `{"stat": {"stat_id": ..., "value": ...}}`. -/
def mkStat (sid : PyVal) (v : PyVal) : PyVal :=
  .dict [("stat", .dict [("stat_id", sid), ("value", v)])]

/-- One scoreboard team: `team` is a list whose element 0 is the
list-of-single-key-dicts team info and element 1 the stats container. -/
def mkScoreTeam (tid : String) (stats : List PyVal) : PyVal :=
  .dict [("team", .list
    [.list [.dict [("team_id", .str tid)]],
     .dict [("team_stats", .dict [("stats", .list stats)])]])]

/-- A scoreboard response holding the given matchups (each a dict of
teams), plus the `count` entries the real payload carries. -/
def mkScoreData (matchups : List (String × PyVal)) : PyVal :=
  .dict [("fantasy_content", .dict [("league", .dict [("scoreboard", .dict
    [("matchups", .dict matchups)])])])]

/-- One standings team: like a scoreboard team plus the element-2 standings
block carrying `outcome_totals`. -/
def mkStandTeam (tid : String) (outcomes : List (String × PyVal))
    (stats : List PyVal) : PyVal :=
  .dict [("team", .list
    [.list [.dict [("team_id", .str tid)]],
     .dict [("team_stats", .dict [("stats", .list stats)])],
     .dict [("team_standings", .dict [("outcome_totals", .dict outcomes)])]])]

/-- A standings response: `standings` is a one-element list whose head
holds the ordinal-keyed `teams` dict. -/
def mkStandData (teams : List (String × PyVal)) : PyVal :=
  .dict [("fantasy_content", .dict [("league", .dict [("standings",
    .list [.dict [("teams", .dict teams)]])])])]

/-- A well-formed two-team scoreboard response (teams 3 and 7, one simple
and one composite stat each, with the usual `count` noise entries). -/
def scoreGood : PyVal :=
  mkScoreData
    [("0", .dict [("teams", .dict
        [("0", mkScoreTeam "3" [mkStat (.str "12") (.str "250"), mkStat (.str "9004003") (.str "7/12")]),
         ("1", mkScoreTeam "7" [mkStat (.str "15") (.str "101"), mkStat (.str "9007006") (.str "3/4")]),
         ("count", .int 2)])]),
     ("count", .int 1)]

/-- A scoreboard response whose only team is a dict without the `"team"`
key: the loop body's `team["team"]` raises `KeyError`. -/
def scoreBad : PyVal :=
  mkScoreData [("0", .dict [("teams", .dict [("0", .dict [])])])]

/-- A scoreboard response whose only team carries a stat id absent from the
name table, so its record gets a `None`-keyed stat. -/
def scoreUnknown : PyVal :=
  mkScoreData [("0", .dict [("teams", .dict
    [("0", mkScoreTeam "3" [mkStat (.str "999") (.str "5")])])])]

/-- Ten well-formed standings team entries keyed "0".."9"; team index 3 has
percentage "0.625", team index 5 the falsy "" (everyone else ".500"). -/
def standGoodEntries : List (String × PyVal) :=
  (List.range 10).map (fun i =>
    (toString i, mkStandTeam (toString (i + 1))
      [("percentage",
        if i = 3 then .str "0.625" else if i = 5 then .str "" else .str ".500")]
      [mkStat (.str "12") (.str "250")]))

/-- The well-formed ten-team standings response. -/
def standGood : PyVal :=
  mkStandData standGoodEntries

/-- The same ten teams except team "0"'s `outcome_totals` lacks the
`percentage` key entirely. -/
def standMissingPct : PyVal :=
  mkStandData ((List.range 10).map (fun i =>
    (toString i, mkStandTeam (toString (i + 1))
      (if i = 0 then [] else [("percentage", .str ".500")])
      [mkStat (.str "12") (.str "250")])))

/-!
Shared lemmas about the accessor.
-/

/-- `safe_get` computes the optional walk and falls back to the default. -/
theorem safeGet_eq_opt (keys : List Key) (d default : PyVal) :
    safeGet d keys default = (safeGetOpt d keys).getD default := by
  induction keys generalizing d with
  | nil => cases d <;> rfl
  | cons k rest ih =>
    cases d with
    | none => rfl
    | bool b => cases hs : stepGet (.bool b) k <;> simp [safeGet, safeGetOpt, hs, ih]
    | int n => cases hs : stepGet (.int n) k <;> simp [safeGet, safeGetOpt, hs, ih]
    | float q => cases hs : stepGet (.float q) k <;> simp [safeGet, safeGetOpt, hs, ih]
    | str s => cases hs : stepGet (.str s) k <;> simp [safeGet, safeGetOpt, hs, ih]
    | list xs => cases hs : stepGet (.list xs) k <;> simp [safeGet, safeGetOpt, hs, ih]
    | dict es => cases hs : stepGet (.dict es) k <;> simp [safeGet, safeGetOpt, hs, ih]

/-- C1: for every JSON-like tree and non-empty key path, if at some step the
requested key is absent from (or inapplicable to) the current node under all
of the accessor's lookup strategies (`stepGet` resolves to nothing, or the
node is `None`), `safe_get` returns the caller-supplied default.  It never
raises: the embedding is a total Lean function over trees of dicts, lists
and scalars, with no error channel in its type. -/
theorem safe_get_default_fallback
    (d : PyVal) (pre : List Key) (k : Key) (post : List Key)
    (default m : PyVal)
    (hm : safeGetOpt d pre = some m) (hk : stepGet m k = Option.none) :
    safeGet d (pre ++ k :: post) default = default := by
  induction pre generalizing d with
  | nil =>
    simp only [safeGetOpt, Option.some.injEq] at hm
    subst hm
    cases d <;> simp [safeGet, hk]
  | cons k' pre' ih =>
    cases d with
    | none => simp [safeGetOpt] at hm
    | bool b =>
      cases hs : stepGet (.bool b) k' <;> simp only [safeGetOpt, hs] at hm
      · exact absurd hm (by simp)
      · simpa [safeGet, hs] using ih _ hm
    | int n =>
      cases hs : stepGet (.int n) k' <;> simp only [safeGetOpt, hs] at hm
      · exact absurd hm (by simp)
      · simpa [safeGet, hs] using ih _ hm
    | float q =>
      cases hs : stepGet (.float q) k' <;> simp only [safeGetOpt, hs] at hm
      · exact absurd hm (by simp)
      · simpa [safeGet, hs] using ih _ hm
    | str s =>
      cases hs : stepGet (.str s) k' <;> simp only [safeGetOpt, hs] at hm
      · exact absurd hm (by simp)
      · simpa [safeGet, hs] using ih _ hm
    | list xs =>
      cases hs : stepGet (.list xs) k' <;> simp only [safeGetOpt, hs] at hm
      · exact absurd hm (by simp)
      · simpa [safeGet, hs] using ih _ hm
    | dict es =>
      cases hs : stepGet (.dict es) k' <;> simp only [safeGetOpt, hs] at hm
      · exact absurd hm (by simp)
      · simpa [safeGet, hs] using ih _ hm

/-- Witness for C1: a one-key path whose key is absent yields the default. -/
theorem safe_get_default_fallback_witness :
    safeGet (.dict [("a", .int 1)]) [Key.str "b"] (.str "dflt") = .str "dflt" :=
  safe_get_default_fallback (.dict [("a", .int 1)]) [] (Key.str "b") []
    (.str "dflt") (.dict [("a", .int 1)]) rfl rfl

/-- C5: an integer path key transparently matches a stringified-integer dict
key: on a (string-keyed) dict node, when `str(k)` is a key of the dict,
`safe_get` with the integer key `k` descends into the value stored at
`str(k)` (the direct `k in d` hit cannot fire on a string-keyed dict).  In
particular `safe_get({"0": {"a": 1}, "1": {"a": 2}}, 1, "a") = 2` (the
witness below). -/
theorem safe_get_int_key_transparency
    (es : List (String × PyVal)) (n : Int) (rest : List Key)
    (default v : PyVal) (hv : lookupD es (toString n) = some v) :
    safeGet (.dict es) (Key.int n :: rest) default = safeGet v rest default := by
  simp [safeGet, stepGet, hv]

/-- Witness for C5: the P2 example from the specification. -/
theorem safe_get_int_key_transparency_witness :
    safeGet (.dict [("0", .dict [("a", .int 1)]), ("1", .dict [("a", .int 2)])])
      [Key.int 1, Key.str "a"] .none = .int 2 :=
  (safe_get_int_key_transparency
    [("0", .dict [("a", .int 1)]), ("1", .dict [("a", .int 2)])]
    1 [Key.str "a"] .none (.dict [("a", .int 2)]) rfl).trans rfl

/-- True when a raw composite value splits on `/` into exactly two
integer-parsable parts — the only way the composite branch completes. -/
def twoIntParsable (s : String) : Bool :=
  match splitOnChar '/' s.data with
  | [a, b] => exOk (pyIntParseChars a) && exOk (pyIntParseChars b)
  | _ => false

/-- A composite decode with any raw value that does not split into exactly
two integer-parsable parts raises instead of producing entries. -/
theorem decode_composite_malformed (sid : PyVal)
    (hsid : (pyEqStr sid "9004003" || pyEqStr sid "9007006") = true)
    (v : PyVal) (h : twoIntParsable (pyStrOf v) = false) :
    exOk (decodeStat sid v) = false := by
  unfold decodeStat
  unfold twoIntParsable at h
  rw [hsid]
  simp only [if_true]
  cases hs : splitOnChar '/' (pyStrOf v).data with
  | nil => simp [hs, exOk]
  | cons a tail =>
    cases tail with
    | nil => simp [hs, exOk]
    | cons b tail2 =>
      cases tail2 with
      | nil =>
        rw [hs] at h
        cases hpa : pyIntParseChars a with
        | error e => simp [hs, hpa, exOk]
        | ok m =>
          cases hpb : pyIntParseChars b with
          | error e => simp [hs, hpa, hpb, exOk]
          | ok a2 => simp [hpa, hpb, exOk] at h
      | cons c tail3 => simp [hs, exOk]

/-- C4: decoding the composite stat id `"9004003"` with raw value `"7/12"`
yields exactly the two integer entries FGM = 7 and FGA = 12, and
`"9007006"` analogously yields FTM/FTA; a raw value whose split on `/` does
not give exactly two integer-parsable parts (e.g. `"bad"`) makes the decode
step fail with an error — the `ValueError` the Python `a, b = s.split("/")`
unpack or `int(...)` would raise — instead of producing entries. -/
theorem composite_split_decode :
    decodeStat (.str "9004003") (.str "7/12")
      = .ok [(some "FGM", .int 7), (some "FGA", .int 12)]
    ∧ decodeStat (.str "9007006") (.str "7/12")
      = .ok [(some "FTM", .int 7), (some "FTA", .int 12)]
    ∧ ∀ v : PyVal, twoIntParsable (pyStrOf v) = false →
        exOk (decodeStat (.str "9004003") v) = false
        ∧ exOk (decodeStat (.str "9007006") v) = false :=
  ⟨rfl, rfl, fun v h =>
    ⟨decode_composite_malformed (.str "9004003") rfl v h,
     decode_composite_malformed (.str "9007006") rfl v h⟩⟩

/-- Witness for C4: the spec's own P4 pair of runs. -/
theorem composite_split_decode_witness :
    decodeStat (.str "9004003") (.str "7/12")
      = .ok [(some "FGM", .int 7), (some "FGA", .int 12)]
    ∧ exOk (decodeStat (.str "9004003") (.str "bad")) = false :=
  ⟨composite_split_decode.1, (composite_split_decode.2.2 (.str "bad") rfl).1⟩

/-- C10: composite detection is sensitive to the runtime type of `stat_id`:
with the integer `9004003` (resp. `9007006`) instead of the string, the
`stat_id == "9004003"` comparison is false so the value is never split;
the name-table lookup applies `str(stat_id)` and hits, so a single entry is
emitted under `"FGM/FGA"` (resp. `"FTM/FTA"`) carrying the raw unsplit
value. -/
theorem composite_detection_type_sensitive (v : PyVal) :
    decodeStat (.int 9004003) v = .ok [(some "FGM/FGA", v)]
    ∧ decodeStat (.int 9007006) v = .ok [(some "FTM/FTA", v)] :=
  ⟨rfl, rfl⟩

/-- C7: a stat entry whose id is neither composite nor in the name table is
not dropped: the decode step emits a single entry under the `None` key with
the raw value unchanged, and when two unknown-id entries occur in one stats
list the later store overwrites the earlier one under the single `None`
key. -/
theorem unknown_stat_id_none_key
    (sid sid2 v v2 : PyVal)
    (h1 : pyEqStr sid "9004003" = false) (h2 : pyEqStr sid "9007006" = false)
    (h3 : lookupS STAT_ID_TO_NAME_MAP (pyStrOf sid) = Option.none)
    (h4 : pyEqStr sid2 "9004003" = false) (h5 : pyEqStr sid2 "9007006" = false)
    (h6 : lookupS STAT_ID_TO_NAME_MAP (pyStrOf sid2) = Option.none) :
    decodeStat sid v = .ok [(Option.none, v)]
    ∧ processStats [] [mkStat sid v, mkStat sid2 v2] = .ok [(Option.none, v2)] := by
  have hd1 : decodeStat sid v = .ok [(Option.none, v)] := by
    unfold decodeStat
    rw [h1, h2, h3]
    rfl
  have hd2 : decodeStat sid2 v2 = .ok [(Option.none, v2)] := by
    unfold decodeStat
    rw [h4, h5, h6]
    rfl
  refine ⟨hd1, ?_⟩
  simp [processStats, applyStat, mkStat, pySubscriptStr, lookupD, hd1, hd2, insertD]

/-- Witness for C7: two unknown ids `"123"` and `"456"` in one stats list. -/
theorem unknown_stat_id_none_key_witness :
    decodeStat (.str "123") (.str "9") = .ok [(Option.none, .str "9")]
    ∧ processStats [] [mkStat (.str "123") (.str "9"), mkStat (.str "456") (.str "8")]
      = .ok [(Option.none, .str "8")] :=
  unknown_stat_id_none_key (.str "123") (.str "456") (.str "9") (.str "8")
    rfl rfl rfl rfl rfl rfl

/-- When every team of a list parses without raising, the team loop
returns exactly the records of the non-skipped teams, in order. -/
theorem teamsLoop_ok (ts : List PyVal)
    (h : ts.all (fun t => exOk (parseTeamScore t)) = true) :
    teamsLoop ts = .ok (ts.filterMap recOfScore) := by
  induction ts with
  | nil => rfl
  | cons t rest ih =>
    rw [List.all_cons, Bool.and_eq_true] at h
    obtain ⟨h1, h2⟩ := h
    cases hp : parseTeamScore t with
    | error e => rw [hp] at h1; simp [exOk] at h1
    | ok r =>
      cases r with
      | some rec =>
        simp [teamsLoop, hp, ih h2, List.filterMap_cons, recOfScore]
      | none =>
        simp [teamsLoop, hp, ih h2, List.filterMap_cons, recOfScore]

/-- The per-matchup arm of the matchup loop is the team loop over the teams
that matchup contributes. -/
theorem matchup_arm_eq (m : PyVal) :
    (match safeGet m [Key.str "teams"] (PyVal.dict []) with
      | .dict es => teamsLoop (es.map Prod.snd)
      | _ => .ok []) = teamsLoop (matchupTeams m) := by
  unfold matchupTeams
  cases safeGet m [Key.str "teams"] (PyVal.dict []) <;> rfl

/-- When every visited team parses without raising, the matchup loop
returns the records of all non-skipped teams across matchups, in order. -/
theorem matchupsLoop_ok (ms : List PyVal)
    (h : (ms.flatMap matchupTeams).all (fun t => exOk (parseTeamScore t)) = true) :
    matchupsLoop ms = .ok ((ms.flatMap matchupTeams).filterMap recOfScore) := by
  induction ms with
  | nil => rfl
  | cons m rest ih =>
    rw [List.flatMap_cons, List.all_append, Bool.and_eq_true] at h
    obtain ⟨h1, h2⟩ := h
    have harm := matchup_arm_eq m
    have hteams := teamsLoop_ok (matchupTeams m) h1
    simp only [matchupsLoop]
    rw [harm, hteams, ih h2]
    simp [List.flatMap_cons, List.filterMap_append]

/-- C2 counterexample: a scoreboard response whose single team is a dict
without the `"team"` key.  The claim says the team is silently skipped and
no exception propagates; the code's `team["team"]` raises `KeyError`, which
— with no try/except anywhere in `parse_weekly_scoreboard` — propagates out
of the whole call. -/
theorem scoreboard_exception_escapes :
    parseWeeklyScoreboard scoreBad = .error (.keyError "team") := rfl

/-- C2 amended: `parse_weekly_scoreboard` silently skips exactly the teams
rejected by its isinstance guards (a non-dict team value, or element 1 of
the team list not being a dict), and when no visited team's processing
raises it returns the records of all remaining well-formed teams; but an
exception raised while processing a team (e.g. a missing `"team"` key on a
dict team) propagates to the caller, because this parser has no try/except. -/
theorem scoreboard_best_effort (data : PyVal)
    (h : (scoreboardTeams data).all (fun t => exOk (parseTeamScore t)) = true) :
    parseWeeklyScoreboard data = .ok (scoreboardRecs data) := by
  unfold parseWeeklyScoreboard scoreboardRecs
  unfold scoreboardTeams at h ⊢
  revert h
  cases hm : safeGet data
      [Key.str "fantasy_content", Key.str "league", Key.str "scoreboard", Key.str "matchups"]
      PyVal.none with
  | dict es => intro h; exact matchupsLoop_ok (es.map Prod.snd) h
  | none => intro h; rfl
  | bool b => intro h; rfl
  | int n => intro h; rfl
  | float q => intro h; rfl
  | str s => intro h; rfl
  | list xs => intro h; rfl

/-- Witness for C2 amended: the two-team scoreboard fixture parses to its
two records (count entries skipped by the guards). -/
theorem scoreboard_best_effort_witness :
    (scoreboardTeams scoreGood).all (fun t => exOk (parseTeamScore t)) = true
    ∧ parseWeeklyScoreboard scoreGood = .ok (scoreboardRecs scoreGood) :=
  ⟨rfl, scoreboard_best_effort scoreGood rfl⟩

/-- The standings loop's final list is the accumulator followed by the
records collected before the first raising entry. -/
theorem standingsGo_fst (es : List (String × PyVal)) (acc : List StandRec) :
    (standingsGo es acc).1 = acc ++ accumulatedRecs es := by
  induction es generalizing acc with
  | nil => simp [standingsGo, accumulatedRecs]
  | cons e rest ih =>
    obtain ⟨k, t⟩ := e
    cases hp : parseTeamStanding k t with
    | ok r =>
      have hwf : wfStand k t = true := by simp [wfStand, hp]
      cases r with
      | some r2 =>
        have hrec : recOfStand k t = some r2 := by simp [recOfStand, hp]
        simp [standingsGo, hp, ih, accumulatedRecs, List.takeWhile_cons, hwf, hrec,
          List.filterMap_cons]
      | none =>
        have hrec : recOfStand k t = Option.none := by simp [recOfStand, hp]
        simp [standingsGo, hp, ih, accumulatedRecs, List.takeWhile_cons, hwf, hrec,
          List.filterMap_cons]
    | error e2 =>
      have hwf : wfStand k t = false := by simp [wfStand, hp]
      simp [standingsGo, hp, accumulatedRecs, List.takeWhile_cons, hwf]

/-- On any `standings` value, catching the team-loop arm's error yields the
records accumulated before the first raising entry. -/
theorem standingsArm_fst (standings : PyVal) :
    (match standingsTeamsArm standings with
      | .ok rs => rs
      | .error (acc, _) => acc) =
    (match entriesArm standings with
      | some es => accumulatedRecs es
      | Option.none => []) := by
  cases standings with
  | dict es =>
    have hgo := standingsGo_fst es []
    cases hsg : standingsGo es [] with
    | mk acc err =>
      rw [hsg] at hgo
      simp only [standingsTeamsArm, entriesArm, hsg]
      cases err
      · simpa using hgo
      · simpa using hgo
  | none => rfl
  | bool b => rfl
  | int n => rfl
  | float q => rfl
  | str s => rfl
  | list xs => rfl

/-- What the try/except wrapper returns, on every input: the records
accumulated before the first failing step. -/
theorem parse_standings_eq_entries (data : PyVal) (week : String) :
    parseWeeklyStandings data week =
      match standingsEntries data with
      | some es => accumulatedRecs es
      | Option.none => [] := by
  simp only [parseWeeklyStandings, parseWeeklyStandingsExc, standingsEntries]
  cases hss : safeGet data
      [Key.str "fantasy_content", Key.str "league", Key.str "standings"] PyVal.none with
  | none => rfl
  | bool b =>
    cases hidx : pyIndex (PyVal.bool b) 0 with
    | error e => rfl
    | ok s0 => exact standingsArm_fst (safeGet s0 [Key.str "teams"] PyVal.none)
  | int n =>
    cases hidx : pyIndex (PyVal.int n) 0 with
    | error e => rfl
    | ok s0 => exact standingsArm_fst (safeGet s0 [Key.str "teams"] PyVal.none)
  | float q =>
    cases hidx : pyIndex (PyVal.float q) 0 with
    | error e => rfl
    | ok s0 => exact standingsArm_fst (safeGet s0 [Key.str "teams"] PyVal.none)
  | str s =>
    cases hidx : pyIndex (PyVal.str s) 0 with
    | error e => rfl
    | ok s0 => exact standingsArm_fst (safeGet s0 [Key.str "teams"] PyVal.none)
  | list xs =>
    cases hidx : pyIndex (PyVal.list xs) 0 with
    | error e => rfl
    | ok s0 => exact standingsArm_fst (safeGet s0 [Key.str "teams"] PyVal.none)
  | dict des =>
    cases hidx : pyIndex (PyVal.dict des) 0 with
    | error e => rfl
    | ok s0 => exact standingsArm_fst (safeGet s0 [Key.str "teams"] PyVal.none)

/-- C3: `parse_weekly_standings` never propagates an exception — the
embedding is a total function into plain record lists, every raise being
absorbed by the top-level try/except — and it returns exactly the sequence
of team records accumulated before the failing step: the records of the
well-formed teams preceding the first raising entry when the walk reaches
the teams dict (`accumulatedRecs`), and the empty sequence when the walk
fails before the team loop. -/
theorem standings_fail_soft (data : PyVal) (week : String) :
    parseWeeklyStandings data week =
      match standingsEntries data with
      | some es => accumulatedRecs es
      | Option.none => [] :=
  parse_standings_eq_entries data week

/-- The 1-based standing number the loop computes from a source dict key. -/
def standingOfKey (k : String) : Int :=
  match pyIntParse k with
  | .ok n => n + 1
  | .error _ => 0

/-- A contributed record comes from a completed loop body. -/
theorem recOfStand_fields (k : String) (t : PyVal) (r : StandRec)
    (h : recOfStand k t = some r) : parseTeamStanding k t = .ok (some r) := by
  unfold recOfStand at h
  cases hp : parseTeamStanding k t with
  | ok r2 => rw [hp] at h; cases r2 <;> simp_all
  | error e => rw [hp] at h; simp at h

/-- A completed standings loop body computed `standing` as the integer
value of the source key plus one, and `win_rate` by the parser's win-rate
extraction from the team's own `team` list. -/
theorem parseTeamStanding_fields (k : String) (t : PyVal) (r : StandRec)
    (hp : parseTeamStanding k t = .ok (some r)) :
    (∃ n, pyIntParse k = .ok n ∧ r.standing = n + 1)
    ∧ ∃ tl, pySubscriptStr t "team" = .ok tl ∧ extractWinRate tl = .ok r.win_rate := by
  unfold parseTeamStanding at hp
  repeat' split at hp
  any_goals exact Except.noConfusion hp
  all_goals simp at hp
  subst hp
  constructor
  · exact ⟨_, by assumption, rfl⟩
  · exact ⟨_, by assumption, by assumption⟩

/-- A team entry that contributes a record completed its loop body. -/
theorem wfStand_of_isSome (k : String) (t : PyVal)
    (h : (recOfStand k t).isSome = true) : wfStand k t = true := by
  unfold recOfStand at h
  unfold wfStand
  cases hp : parseTeamStanding k t with
  | ok r2 => rfl
  | error e => rw [hp] at h; simp at h

/-- When every entry contributes a record, no entry raises, so the
accumulated records cover the whole entry list. -/
theorem accumulated_all_ok (es : List (String × PyVal))
    (h : es.all (fun e => (recOfStand e.1 e.2).isSome) = true) :
    accumulatedRecs es = es.filterMap (fun e => recOfStand e.1 e.2) := by
  induction es with
  | nil => rfl
  | cons e rest ih =>
    rw [List.all_cons, Bool.and_eq_true] at h
    obtain ⟨h1, h2⟩ := h
    have hwf := wfStand_of_isSome e.1 e.2 h1
    unfold accumulatedRecs at ih ⊢
    rw [List.takeWhile_cons, hwf]
    simp only [if_true, List.filterMap_cons]
    cases hr : recOfStand e.1 e.2 with
    | some r => rw [ih h2]
    | none => rw [ih h2]

/-- When every entry contributes a record, the standing values are the
source keys interpreted as integers plus one, in entry order. -/
theorem filterMap_standing (es : List (String × PyVal))
    (h : es.all (fun e => (recOfStand e.1 e.2).isSome) = true) :
    ((es.filterMap (fun e => recOfStand e.1 e.2)).map (fun r => r.standing))
      = es.map (fun e => standingOfKey e.1) := by
  induction es with
  | nil => rfl
  | cons e rest ih =>
    rw [List.all_cons, Bool.and_eq_true] at h
    obtain ⟨h1, h2⟩ := h
    obtain ⟨r, hr⟩ := Option.isSome_iff_exists.mp h1
    obtain ⟨⟨n, hn, hs⟩, _⟩ := parseTeamStanding_fields e.1 e.2 r (recOfStand_fields e.1 e.2 r hr)
    have hk : standingOfKey e.1 = n + 1 := by unfold standingOfKey; rw [hn]
    simp only [List.filterMap_cons, hr, List.map_cons, ih h2, hs, hk]

/-- C6 counterexample: ten teams keyed "0".."9", all fully well-formed
except that team "0"'s `outcome_totals` lacks the `percentage` key.  The
claim says a missing percentage yields `win_rate = 0.0` within a 10-record
result; the code instead raises `KeyError` at that team, the try/except
returns the records accumulated so far, and the result is empty — not ten
records. -/
theorem standings_missing_percentage_aborts :
    parseWeeklyStandings standMissingPct "4" = [] := rfl

/-- C6 amended: for a standings response whose teams mapping holds 10 team
entries keyed "0" through "9" in insertion order, each completing its loop
body, the parser returns 10 records whose `standing` fields are 1 through
10 in that exact order (`standing` = integer value of the source key plus
one), and each record's `win_rate` is exactly what the parser's win-rate
extraction produces on that team's `team` list — the source percentage
converted to a number times 100, or 0.0 when the percentage value is
present but falsy.  (A missing percentage key instead raises, truncating
the walk at that team — see the counterexample.) -/
theorem standings_scenario_b
    (data : PyVal) (week : String) (es : List (String × PyVal))
    (h1 : standingsEntries data = some es)
    (h2 : es.map Prod.fst = ["0", "1", "2", "3", "4", "5", "6", "7", "8", "9"])
    (h3 : es.all (fun e => (recOfStand e.1 e.2).isSome) = true) :
    (parseWeeklyStandings data week).map (fun r => r.standing)
      = [1, 2, 3, 4, 5, 6, 7, 8, 9, 10]
    ∧ ∀ e ∈ es, ∃ r tl, recOfStand e.1 e.2 = some r
        ∧ pySubscriptStr e.2 "team" = .ok tl
        ∧ extractWinRate tl = .ok r.win_rate := by
  have hp0 := parse_standings_eq_entries data week
  rw [h1] at hp0
  have hp : parseWeeklyStandings data week = accumulatedRecs es := hp0
  constructor
  · rw [hp, accumulated_all_ok es h3, filterMap_standing es h3]
    have hcomp : es.map (fun e => standingOfKey e.1)
        = (es.map Prod.fst).map standingOfKey := by
      rw [List.map_map]
      rfl
    rw [hcomp, h2]
    rfl
  · intro e he
    have hsome : (recOfStand e.1 e.2).isSome = true := by
      have hall := List.all_eq_true.mp h3 e he
      simpa using hall
    obtain ⟨r, hr⟩ := Option.isSome_iff_exists.mp hsome
    obtain ⟨_, tl, htl, hw⟩ :=
      parseTeamStanding_fields e.1 e.2 r (recOfStand_fields e.1 e.2 r hr)
    exact ⟨r, tl, hr, htl, hw⟩

/-- Witness for C6 amended: the ten-team fixture gives standings 1..10 in
order; the team with source percentage "0.625" has `win_rate` 62.5 and the
team with the falsy "" percentage has `win_rate` 0. -/
theorem standings_scenario_b_witness :
    ((parseWeeklyStandings standGood "4").map (fun r => r.standing)
      = [1, 2, 3, 4, 5, 6, 7, 8, 9, 10])
    ∧ (∃ r, (parseWeeklyStandings standGood "4").get? 3 = some r
        ∧ r.win_rate = 125 / 2)
    ∧ (∃ r, (parseWeeklyStandings standGood "4").get? 5 = some r
        ∧ r.win_rate = 0) := by
  refine ⟨(standings_scenario_b standGood "4" standGoodEntries rfl rfl rfl).1, ⟨_, rfl, ?_⟩, ⟨_, rfl, ?_⟩⟩
  · show (1 : Rat) * (((0 : Nat) : Rat) + ((625 : Nat) : Rat) / (10 : Rat) ^ 3) * 100 = 125 / 2
    norm_num
  · show (0 : Rat) = 0
    rfl

/-- A dict store keeps the keys duplicate-free. -/
theorem insertD_keys_nodup (m : List (StatKey × PyVal)) (k : StatKey) (v : PyVal)
    (h : (m.map Prod.fst).Nodup) : ((insertD m k v).map Prod.fst).Nodup := by
  unfold insertD
  split
  · have heq : ∀ e : StatKey × PyVal,
        ((if e.1 = k then (e.1, v) else e) : StatKey × PyVal).1 = e.1 := by
      intro e
      split <;> rfl
    have : ((m.map (fun e => if e.1 = k then (e.1, v) else e)).map Prod.fst)
        = m.map Prod.fst := by
      rw [List.map_map]
      exact List.map_congr_left (fun e _ => heq e)
    rw [this]
    exact h
  · rename_i hany
    have hk : k ∉ m.map Prod.fst := by
      intro hmem
      apply hany
      obtain ⟨e, he, hfst⟩ := List.mem_map.mp hmem
      exact List.any_eq_true.mpr ⟨e, he, by simp [hfst]⟩
    simp [List.nodup_append, h, hk, List.disjoint_singleton]

/-- Folding dict stores keeps the keys duplicate-free. -/
theorem foldl_insertD_nodup (entries : List (StatKey × PyVal))
    (m : List (StatKey × PyVal)) (h : (m.map Prod.fst).Nodup) :
    ((entries.foldl (fun acc e => insertD acc e.1 e.2) m).map Prod.fst).Nodup := by
  induction entries generalizing m with
  | nil => exact h
  | cons e rest ih => exact ih _ (insertD_keys_nodup m e.1 e.2 h)

/-- One stats-loop iteration keeps the keys duplicate-free. -/
theorem applyStat_nodup (m : List (StatKey × PyVal)) (st : PyVal)
    (m2 : List (StatKey × PyVal)) (h : applyStat m st = .ok m2)
    (hm : (m.map Prod.fst).Nodup) : (m2.map Prod.fst).Nodup := by
  unfold applyStat at h
  repeat' split at h
  any_goals exact Except.noConfusion h
  simp only [Except.ok.injEq] at h
  subst h
  exact foldl_insertD_nodup _ m hm

/-- The whole stats loop keeps the keys duplicate-free. -/
theorem processStats_nodup (stats : List PyVal) (m m2 : List (StatKey × PyVal))
    (h : processStats m stats = .ok m2)
    (hm : (m.map Prod.fst).Nodup) : (m2.map Prod.fst).Nodup := by
  induction stats generalizing m with
  | nil =>
    unfold processStats at h
    simp only [Except.ok.injEq] at h
    subst h
    exact hm
  | cons st rest ih =>
    unfold processStats at h
    split at h
    · exact Except.noConfusion h
    · rename_i m3 hap
      exact ih m3 h (applyStat_nodup m st m3 hap hm)

/-- Every record a scoreboard team contributes has duplicate-free stats
keys (Python dicts cannot hold a key twice). -/
theorem parseTeamScore_stats_nodup (t : PyVal) (r : TeamRec)
    (h : parseTeamScore t = .ok (some r)) : (r.stats.map Prod.fst).Nodup := by
  unfold parseTeamScore at h
  repeat' split at h
  any_goals exact Except.noConfusion h
  all_goals simp at h
  subst h
  exact processStats_nodup _ _ _ (by assumption) (by simp)

/-- Every record the team loop emits comes from a completed team body. -/
theorem teamsLoop_src (ts : List PyVal) (rs : List TeamRec)
    (h : teamsLoop ts = .ok rs) (r : TeamRec) (hr : r ∈ rs) :
    ∃ t, parseTeamScore t = .ok (some r) := by
  induction ts generalizing rs with
  | nil =>
    unfold teamsLoop at h
    simp only [Except.ok.injEq] at h
    subst h
    exact absurd hr (List.not_mem_nil r)
  | cons t rest ih =>
    unfold teamsLoop at h
    split at h
    · exact Except.noConfusion h
    · rename_i r0 hp
      split at h
      · exact Except.noConfusion h
      · rename_i rs2 hrest
        cases r0 with
        | some rec =>
          simp only [Except.ok.injEq] at h
          subst h
          rcases List.mem_cons.mp hr with hEq | hmem
          · exact ⟨t, by rw [hp, hEq]⟩
          · exact ih rs2 hrest hmem
        | none =>
          simp only [Except.ok.injEq] at h
          subst h
          exact ih rs2 hrest hr

/-- Every record the matchup loop emits comes from a completed team body. -/
theorem matchupsLoop_src (ms : List PyVal) (rs : List TeamRec)
    (h : matchupsLoop ms = .ok rs) (r : TeamRec) (hr : r ∈ rs) :
    ∃ t, parseTeamScore t = .ok (some r) := by
  induction ms generalizing rs with
  | nil =>
    unfold matchupsLoop at h
    simp only [Except.ok.injEq] at h
    subst h
    exact absurd hr (List.not_mem_nil r)
  | cons m rest ih =>
    simp only [matchupsLoop] at h
    rw [matchup_arm_eq m] at h
    split at h
    · exact Except.noConfusion h
    · rename_i rs1 h1
      split at h
      · exact Except.noConfusion h
      · rename_i rs2 h2
        simp only [Except.ok.injEq] at h
        subst h
        rcases List.mem_append.mp hr with hmem | hmem
        · exact teamsLoop_src (matchupTeams m) rs1 h1 r hmem
        · exact ih rs2 h2 hmem

/-- Every record `parse_weekly_scoreboard` emits comes from a completed
team body. -/
theorem scoreboard_src (data : PyVal) (rs : List TeamRec)
    (h : parseWeeklyScoreboard data = .ok rs) (r : TeamRec) (hr : r ∈ rs) :
    ∃ t, parseTeamScore t = .ok (some r) := by
  unfold parseWeeklyScoreboard at h
  revert h
  cases safeGet data
      [Key.str "fantasy_content", Key.str "league", Key.str "scoreboard", Key.str "matchups"]
      PyVal.none with
  | dict es => exact fun h => matchupsLoop_src (es.map Prod.snd) rs h r hr
  | none =>
    intro h
    simp only [Except.ok.injEq] at h
    subst h
    exact absurd hr (List.not_mem_nil r)
  | bool b =>
    intro h
    simp only [Except.ok.injEq] at h
    subst h
    exact absurd hr (List.not_mem_nil r)
  | int n =>
    intro h
    simp only [Except.ok.injEq] at h
    subst h
    exact absurd hr (List.not_mem_nil r)
  | float q =>
    intro h
    simp only [Except.ok.injEq] at h
    subst h
    exact absurd hr (List.not_mem_nil r)
  | str s =>
    intro h
    simp only [Except.ok.injEq] at h
    subst h
    exact absurd hr (List.not_mem_nil r)
  | list xs =>
    intro h
    simp only [Except.ok.injEq] at h
    subst h
    exact absurd hr (List.not_mem_nil r)

/-- Folding the key-coerced stores over a map of string-keyed,
duplicate-free entries replays the map verbatim after any accumulator
whose keys avoid the map's. -/
theorem statsRT_go (m : List (StatKey × PyVal)) :
    ∀ acc : List (StatKey × PyVal),
    (m.all (fun e => e.1.isSome) = true) →
    ((m.map Prod.fst).Nodup) →
    (∀ e ∈ m, e.1 ∉ acc.map Prod.fst) →
    m.foldl (fun a e => insertD a (jsonRTKey e.1) e.2) acc = acc ++ m := by
  induction m with
  | nil => intro acc _ _ _; simp
  | cons e rest ih =>
    intro acc hsome hnodup hdisj
    rw [List.all_cons, Bool.and_eq_true] at hsome
    obtain ⟨h1, h2⟩ := hsome
    have hkey : jsonRTKey e.1 = e.1 := by
      cases hk : e.1 with
      | some s => rfl
      | none => rw [hk] at h1; simp at h1
    have hnotin : e.1 ∉ acc.map Prod.fst := hdisj e (List.mem_cons_self e rest)
    have hany : acc.any (fun a => decide (a.1 = e.1)) = false := by
      rw [List.any_eq_false]
      intro a ha
      simp only [decide_eq_true_eq]
      intro heq
      exact hnotin (List.mem_map.mpr ⟨a, ha, heq⟩)
    have hstep : insertD acc (jsonRTKey e.1) e.2 = acc ++ [e] := by
      rw [hkey]
      unfold insertD
      rw [hany]
      simp
    rw [List.foldl_cons, hstep]
    rw [List.map_cons] at hnodup
    have hnodup2 : (rest.map Prod.fst).Nodup := hnodup.of_cons
    have hdisj2 : ∀ e2 ∈ rest, e2.1 ∉ (acc ++ [e]).map Prod.fst := by
      intro e2 he2
      rw [List.map_append, List.mem_append]
      rintro (hin | hin)
      · exact hdisj e2 (List.mem_cons_of_mem e he2) hin
      · simp only [List.map_cons, List.map_nil, List.mem_singleton] at hin
        have : e.1 ∉ rest.map Prod.fst := (List.nodup_cons.mp hnodup).1
        exact this (hin ▸ List.mem_map.mpr ⟨e2, he2, rfl⟩)
    rw [ih (acc ++ [e]) h2 hnodup2 hdisj2]
    simp

/-- A stats map whose keys are all strings and duplicate-free survives the
persisted round trip unchanged. -/
theorem statsRT_id (m : List (StatKey × PyVal))
    (hsome : m.all (fun e => e.1.isSome) = true)
    (hnodup : (m.map Prod.fst).Nodup) : statsRT m = m := by
  unfold statsRT
  rw [statsRT_go m [] hsome hnodup (by intro e _; simp)]
  simp

/-- The record the unknown-stat-id fixture parses to. -/
def unknownRec : TeamRec :=
  { team_name := some "Nahi\'s BOYS", stats := [(Option.none, .str "5")] }

/-- C8 counterexample: the parser output for a team carrying an unknown
stat id holds a `None`-keyed stat; `json.dump` writes that key as the
string `"null"`, so decoding the persisted file yields a different record
sequence — the round trip is not the identity on this parser output. -/
theorem round_trip_not_id :
    parseWeeklyScoreboard scoreUnknown = .ok [unknownRec]
    ∧ saveLoadRoundTrip [unknownRec] ≠ [unknownRec] := by
  constructor
  · rfl
  · intro h
    have h2 : ((saveLoadRoundTrip [unknownRec]).head?.bind
          (fun r => r.stats.head?)).map Prod.fst
        = (([unknownRec] : List TeamRec).head?.bind
          (fun r => r.stats.head?)).map Prod.fst :=
      congrArg (fun rs => (rs.head?.bind (fun r => r.stats.head?)).map Prod.fst) h
    have h3 : (some (some "null") : Option StatKey) = some Option.none := h2
    simp at h3

/-- Every record a standings team contributes has duplicate-free stats
keys (Python dicts cannot hold a key twice). -/
theorem parseTeamStanding_stats_nodup (k : String) (t : PyVal) (r : StandRec)
    (h : parseTeamStanding k t = .ok (some r)) : (r.stats.map Prod.fst).Nodup := by
  unfold parseTeamStanding at h
  repeat' split at h
  any_goals exact Except.noConfusion h
  all_goals simp at h
  subst h
  exact processStats_nodup _ _ _ (by assumption) (by simp)

/-- Every record `parse_weekly_standings` returns comes from a completed
standings loop body. -/
theorem standings_src (data : PyVal) (week : String) (r : StandRec)
    (hr : r ∈ parseWeeklyStandings data week) :
    ∃ k t, parseTeamStanding k t = .ok (some r) := by
  have hp := parse_standings_eq_entries data week
  revert hr
  rw [hp]
  cases standingsEntries data with
  | none => intro hr; exact absurd hr (List.not_mem_nil r)
  | some es =>
    intro hr
    have hr2 : r ∈ (es.takeWhile (fun e => wfStand e.1 e.2)).filterMap
        (fun e => recOfStand e.1 e.2) := hr
    obtain ⟨e, _, he⟩ := List.mem_filterMap.mp hr2
    exact ⟨e.1, e.2, recOfStand_fields e.1 e.2 r he⟩

/-- C8 amended: a parser-produced record sequence — from either parser,
both persisted by the same `save_parsed_response_to_file` — survives the
persisted JSON round trip unchanged (same records, same key insertion
order, same values) provided no record carries the `None` stat key (i.e.
no unknown stat id was seen); a `None` key comes back as the string key
`"null"` instead (see the counterexample). -/
theorem round_trip_id (data data2 : PyVal) (week : String)
    (rs : List TeamRec) (ss : List StandRec)
    (h : parseWeeklyScoreboard data = .ok rs)
    (hs : parseWeeklyStandings data2 week = ss)
    (hkeys : rs.all (fun r => r.stats.all (fun e => e.1.isSome)) = true)
    (hkeys2 : ss.all (fun r => r.stats.all (fun e => e.1.isSome)) = true) :
    saveLoadRoundTrip rs = rs ∧ saveLoadRoundTripStand ss = ss := by
  constructor
  · unfold saveLoadRoundTrip
    rw [List.all_eq_true] at hkeys
    have harg : ∀ r ∈ rs, teamRecRT r = r := by
      intro r hr
      obtain ⟨t, ht⟩ := scoreboard_src data rs h r hr
      have hnodup := parseTeamScore_stats_nodup t r ht
      have hsome := hkeys r hr
      unfold teamRecRT
      rw [statsRT_id r.stats (by simpa using hsome) hnodup]
    calc rs.map teamRecRT = rs.map id := List.map_congr_left harg
      _ = rs := List.map_id rs
  · unfold saveLoadRoundTripStand
    rw [List.all_eq_true] at hkeys2
    have harg : ∀ r ∈ ss, standRecRT r = r := by
      intro r hr
      obtain ⟨k, t, ht⟩ := standings_src data2 week r (hs ▸ hr)
      have hnodup := parseTeamStanding_stats_nodup k t r ht
      have hsome := hkeys2 r hr
      unfold standRecRT
      rw [statsRT_id r.stats (by simpa using hsome) hnodup]
    calc ss.map standRecRT = ss.map id := List.map_congr_left harg
      _ = ss := List.map_id ss

/-- Witness for C8 amended: the two-team scoreboard fixture's records and
the ten-team standings fixture's records (all stat keys known) round-trip
to themselves. -/
theorem round_trip_id_witness :
    (∃ rs ss, parseWeeklyScoreboard scoreGood = .ok rs
      ∧ parseWeeklyStandings standGood "4" = ss
      ∧ rs.all (fun r => r.stats.all (fun e => e.1.isSome)) = true
      ∧ ss.all (fun r => r.stats.all (fun e => e.1.isSome)) = true
      ∧ saveLoadRoundTrip rs = rs ∧ saveLoadRoundTripStand ss = ss) := by
  refine ⟨_, _, rfl, rfl, rfl, rfl,
    round_trip_id scoreGood standGood "4" _ _ rfl rfl rfl rfl⟩

